import Mathlib

/-!
Verification of `src/video_core/pica_types.h` (Citra PICA numeric types).

The development shallow-embeds the two value types of that header:

* `Pica.Fix12P4` — the 16-bit signed fixed-point type (12 integer bits,
  4 fractional bits, two's complement).  The C++ `int16_t` raw value is
  modelled as an unbounded `ℤ` together with `Pica.toInt16`, which performs
  the wrap-around of `static_cast<int16_t>`.  The C++ bitwise `&` / `|`
  (applied in the header to 16-bit-destined quantities, immediately followed
  by a cast to `int16_t`) are modelled by `Pica.int16And` / `Pica.int16Or`:
  the two's-complement AND/OR of the low 16 bits, produced as a signed
  16-bit value.  Because AND and OR act on each bit position independently
  and the surviving bits of the C++ `int`-width operation are exactly the
  low 16, this is bit-exact for the `int16_t` results the header computes.
  C++ signed integer division truncates toward zero, which is `Int.tdiv`.
  `::round` rounds half away from zero.  `Fix12P4::FromFloat` takes a native
  `float`; every finite `float` is a rational number and multiplication by
  `16.0f` is exact (a pure exponent shift) whenever it does not overflow, so
  the argument is modelled as `ℚ`.  Division by a zero raw value is a C++
  arithmetic fault; `Divide` therefore returns an `Option`, `none` being the
  fault.

* `Pica.Float M E` — the custom float family.  The C++ object stores a
  native IEEE-754 binary32 `float`; the model stores the 32-bit pattern of
  that float as a `ℕ` (`memcpy` between the pattern and the stored float is
  the identity on patterns).  The native float operations used by the
  header (`*`, `/`, `+`, `-`, `==`, `isnan`) are modelled bit-exactly on
  patterns: `f32Mul`, `f32Add`, `f32Sub`, `f32Div` implement IEEE-754
  binary32 arithmetic in round-to-nearest-even, with the single deviation
  that a NaN result is produced as the canonical quiet NaN (the header never
  inspects NaN payloads, only NaN-ness).
-/

set_option maxRecDepth 8000

namespace Pica

/-- Wrap an integer to a signed 16-bit two's-complement value: the effect of
`static_cast<int16_t>` (reduction modulo 2^16 into `[-32768, 32767]`). -/
def toInt16 (z : ℤ) : ℤ := (z + 32768) % 65536 - 32768

/-- The unsigned 16-bit pattern (two's complement) of the low 16 bits of an
integer. -/
def toBits16 (z : ℤ) : ℕ := (z % 65536).toNat

/-- Read an unsigned 16-bit pattern back as a signed 16-bit value. -/
def ofBits16 (n : ℕ) : ℤ := if n < 32768 then (n : ℤ) else (n : ℤ) - 65536

/-- C++ bitwise `&` of two 16-bit-valued signed integers (two's complement),
result as `int16_t`.  AND is computed per bit position, so performing it on
the low 16 bits agrees with the C++ `int`-width AND followed by the
`int16_t` cast. -/
def int16And (a b : ℤ) : ℤ := ofBits16 (Nat.land (toBits16 a) (toBits16 b))

/-- C++ bitwise `|` of two 16-bit-valued signed integers (two's complement),
result as `int16_t`; see `int16And`. -/
def int16Or (a b : ℤ) : ℤ := ofBits16 (Nat.lor (toBits16 a) (toBits16 b))

/-- Round half away from zero, the semantics of C `::round` on exact
(rational) arguments. -/
def ratRound (q : ℚ) : ℤ := if 0 ≤ q then ⌊q + 1 / 2⌋ else -⌊-q + 1 / 2⌋

/-- `class Fix12P4`: a 16-bit signed fixed-point number, 12 integer bits and
4 fraction bits; `value` is the `int16_t` raw field. -/
structure Fix12P4 where
  value : ℤ
  deriving DecidableEq

/-- `Fix12P4::FracMask()`: `static_cast<int16_t>(0xF)`. -/
def Fix12P4.FracMask : ℤ := 0xF

/-- `Fix12P4::IntMask()`: `static_cast<int16_t>(~0xF)`, i.e. `-16`. -/
def Fix12P4.IntMask : ℤ := -16

/-- `Fix12P4::FromInt(int_val, frac_val)`:
`static_cast<int16_t>(((int_val * 16) & IntMask()) | (frac_val & FracMask()))`. -/
def Fix12P4.FromInt (int_val frac_val : ℤ) : Fix12P4 :=
  ⟨int16Or (int16And (int_val * 16) Fix12P4.IntMask)
    (int16And frac_val Fix12P4.FracMask)⟩

/-- `Fix12P4::FromFloat(float_val)`:
`static_cast<int16_t>(::round(float_val * 16.0f))`. -/
def Fix12P4.FromFloat (float_val : ℚ) : Fix12P4 :=
  ⟨toInt16 (ratRound (float_val * 16))⟩

/-- `Fix12P4::Zero()`. -/
def Fix12P4.Zero : Fix12P4 := ⟨0⟩

/-- `Fix12P4::Floor()`: `Fix12P4{static_cast<int16_t>(value & IntMask())}`. -/
def Fix12P4.Floor (a : Fix12P4) : Fix12P4 :=
  ⟨int16And a.value Fix12P4.IntMask⟩

/-- `Fix12P4::Ceil()`:
`Fix12P4{static_cast<int16_t>(value + FracMask())}.Floor()`. -/
def Fix12P4.Ceil (a : Fix12P4) : Fix12P4 :=
  Fix12P4.Floor ⟨toInt16 (a.value + Fix12P4.FracMask)⟩

/-- `Fix12P4::operator+`: raw `int16_t` addition (wrapping). -/
def Fix12P4.add (a b : Fix12P4) : Fix12P4 := ⟨toInt16 (a.value + b.value)⟩

/-- `Fix12P4::operator-`: raw `int16_t` subtraction (wrapping). -/
def Fix12P4.sub (a b : Fix12P4) : Fix12P4 := ⟨toInt16 (a.value - b.value)⟩

/-- `Fix12P4::Multiply(left, right)`:
`static_cast<int16_t>((left * right) / 16)` with truncating `int` division. -/
def Fix12P4.Multiply (left right : ℤ) : ℤ := toInt16 (Int.tdiv (left * right) 16)

/-- `Fix12P4::Divide(left, right)`:
`static_cast<int16_t>((left * 16) / right)` with truncating `int` division;
`right == 0` is the native division fault, modelled as `none`. -/
def Fix12P4.Divide (left right : ℤ) : Option ℤ :=
  if right = 0 then none else some (toInt16 (Int.tdiv (left * 16) right))

/-- `Fix12P4::operator*`. -/
def Fix12P4.mul (a b : Fix12P4) : Fix12P4 := ⟨Fix12P4.Multiply a.value b.value⟩

/-- `Fix12P4::operator/`: wraps `Divide`; a division fault propagates. -/
def Fix12P4.div (a b : Fix12P4) : Option Fix12P4 :=
  Option.map Fix12P4.mk (Fix12P4.Divide a.value b.value)

/-- `operator<(Fix12P4, Fix12P4)`: comparison of the signed raw values. -/
def Fix12P4.lt (a b : Fix12P4) : Bool := decide (a.value < b.value)

/-- `ratRound` is the identity on integers. -/
lemma ratRound_intCast (k : ℤ) : ratRound ((k : ℚ)) = k := by
  unfold ratRound
  by_cases h : (0 : ℚ) ≤ (k : ℚ)
  · rw [if_pos h, add_comm, Int.floor_add_int]
    norm_num
  · rw [if_neg h]
    have : (-(k : ℚ) + 1 / 2) = 1 / 2 + ((-k : ℤ) : ℚ) := by push_cast; ring
    rw [this, Int.floor_add_int]
    norm_num

example : Fix12P4.FromInt 1 0 = ⟨16⟩ := by decide
example : Fix12P4.FromInt (-1) 0 = ⟨-16⟩ := by decide
example : Fix12P4.FromInt (-2048) 0 = ⟨-32768⟩ := by decide
example : Fix12P4.FromInt 2047 15 = ⟨32767⟩ := by decide
example : Fix12P4.mul (Fix12P4.FromInt 1 0) (Fix12P4.FromInt 1 0) = Fix12P4.FromInt 1 0 := by decide
example : Fix12P4.Ceil (Fix12P4.FromInt 5 0) = Fix12P4.FromInt 5 0 := by decide
example : Fix12P4.add (Fix12P4.FromInt 1024 0) (Fix12P4.FromInt 1024 0) = ⟨-32768⟩ := by decide
example : Fix12P4.FromFloat (1 / 2) = ⟨8⟩ := by
  have h : ((1 : ℚ) / 2) * 16 = ((8 : ℤ) : ℚ) := by norm_num
  simp only [Fix12P4.FromFloat, h, ratRound_intCast]
  decide
example : Fix12P4.FromFloat (16 * 1) = ⟨256⟩ := by
  have h : ((16 : ℚ) * 1) * 16 = ((256 : ℤ) : ℚ) := by norm_num
  simp only [Fix12P4.FromFloat, h, ratRound_intCast]
  decide

/-!
IEEE-754 binary32 model.  A float is its 32-bit pattern, a `ℕ`.
-/

/-- Sign bit of a binary32 pattern. -/
def f32Sign (x : ℕ) : ℕ := x / 2 ^ 31 % 2

/-- Biased exponent field of a binary32 pattern. -/
def f32Exp (x : ℕ) : ℕ := x / 2 ^ 23 % 2 ^ 8

/-- Fraction field of a binary32 pattern. -/
def f32Frac (x : ℕ) : ℕ := x % 2 ^ 23

/-- `std::isnan` on a binary32 pattern. -/
def f32IsNan (x : ℕ) : Bool := f32Exp x == 255 && f32Frac x != 0

/-- The pattern is an infinity. -/
def f32IsInf (x : ℕ) : Bool := f32Exp x == 255 && f32Frac x == 0

/-- `value == 0.f` on a binary32 pattern: true exactly for `+0.0` and `-0.0`
(false for NaN and for nonzero finite values, denormals included). -/
def f32IsZero (x : ℕ) : Bool := f32Exp x == 0 && f32Frac x == 0

/-- Canonical quiet NaN pattern (the model's NaN results are canonical; the
header only ever asks whether a value is NaN). -/
def f32QNan : ℕ := 0x7FC00000

/-- `+Infinity` pattern. -/
def f32PosInf : ℕ := 0x7F800000

/-- Integral significand of a finite binary32 pattern: the represented value
is `± f32SigOf x * 2 ^ f32ExOf x`. -/
def f32SigOf (x : ℕ) : ℕ :=
  if f32Exp x = 0 then f32Frac x else 2 ^ 23 + f32Frac x

/-- Exponent of the integral significand of a finite binary32 pattern. -/
def f32ExOf (x : ℕ) : ℤ :=
  if f32Exp x = 0 then -149 else (f32Exp x : ℤ) - 150

/-- Number of binary digits of `m`, correct for every `m < 2 ^ 320` (all
intermediate significands below stay far under that). -/
def bitLen (m : ℕ) : ℕ := ((List.range 320).filter (fun i => m >>> i ≠ 0)).length

/-- Pack a rounded integral significand `m ∈ [0, 2^24]` at exponent `e` into
the low 31 bits of a binary32 pattern, renormalizing a rounding carry
(`m = 2^24`) and overflowing to infinity; a subnormal result arrives here
with `e = -149` and `m < 2^23`. -/
def f32Encode (m : ℕ) (e : ℤ) : ℕ :=
  let m' := if m = 2 ^ 24 then 2 ^ 23 else m
  let e' := if m = 2 ^ 24 then e + 1 else e
  if 2 ^ 23 ≤ m' then
    if 255 ≤ e' + 150 then f32PosInf
    else (e' + 150).toNat * 2 ^ 23 + (m' - 2 ^ 23)
  else m'

/-- Round the exact positive value `m * 2 ^ e` (`m ≠ 0`) to binary32 in
round-to-nearest, ties-to-even, producing the low 31 bits of the result
pattern.  `d` is how many low bits must be discarded: enough to leave at
most 24 significand bits, and no fewer than the subnormal cutoff at
exponent `-149` demands. -/
def f32RoundSig (m : ℕ) (e : ℤ) : ℕ :=
  let d : ℤ := max ((bitLen m : ℤ) - 24) (-149 - e)
  if d ≤ 0 then f32Encode (m <<< (-d).toNat) (e + d)
  else
    let D := d.toNat
    let q := m >>> D
    let r := m % 2 ^ D
    let half := 2 ^ (D - 1)
    f32Encode (if half < r || (r == half && q % 2 == 1) then q + 1 else q) (e + d)

/-- IEEE-754 binary32 multiplication on patterns (round-to-nearest-even,
canonical NaN). -/
def f32Mul (x y : ℕ) : ℕ :=
  let s := (f32Sign x + f32Sign y) % 2
  if f32IsNan x || f32IsNan y then f32QNan
  else if f32IsInf x || f32IsInf y then
    if f32IsZero x || f32IsZero y then f32QNan
    else s * 2 ^ 31 + f32PosInf
  else if f32IsZero x || f32IsZero y then s * 2 ^ 31
  else s * 2 ^ 31 + f32RoundSig (f32SigOf x * f32SigOf y) (f32ExOf x + f32ExOf y)

/-- Flip the sign bit of a binary32 pattern. -/
def f32Neg (x : ℕ) : ℕ := x ^^^ 2 ^ 31

/-- IEEE-754 binary32 addition on patterns (round-to-nearest-even, canonical
NaN): special cases, then the exact signed sum of the two finite values,
rounded. -/
def f32Add (x y : ℕ) : ℕ :=
  if f32IsNan x || f32IsNan y then f32QNan
  else if f32IsInf x then
    if f32IsInf y && f32Sign x != f32Sign y then f32QNan else x
  else if f32IsInf y then y
  else if f32IsZero x && f32IsZero y then
    if f32Sign x == 1 && f32Sign y == 1 then 2 ^ 31 else 0
  else
    let e := min (f32ExOf x) (f32ExOf y)
    let sx : ℤ := (if f32Sign x = 1 then -1 else 1) * (f32SigOf x : ℤ)
      * 2 ^ (f32ExOf x - e).toNat
    let sy : ℤ := (if f32Sign y = 1 then -1 else 1) * (f32SigOf y : ℤ)
      * 2 ^ (f32ExOf y - e).toNat
    if sx + sy = 0 then 0
    else (if sx + sy < 0 then 2 ^ 31 else 0) + f32RoundSig (sx + sy).natAbs e

/-- IEEE-754 binary32 subtraction on patterns: `x - y = x + (-y)` exactly. -/
def f32Sub (x y : ℕ) : ℕ := f32Add x (f32Neg y)

/-- IEEE-754 binary32 division on patterns (round-to-nearest-even, canonical
NaN).  The finite quotient is rounded through a guard-and-sticky integer
quotient `2*q + sticky` carrying at least 26 significant bits, which rounds
identically to the exact quotient. -/
def f32Div (x y : ℕ) : ℕ :=
  let s := (f32Sign x + f32Sign y) % 2
  if f32IsNan x || f32IsNan y then f32QNan
  else if f32IsInf x then
    if f32IsInf y then f32QNan else s * 2 ^ 31 + f32PosInf
  else if f32IsInf y then s * 2 ^ 31
  else if f32IsZero y then
    if f32IsZero x then f32QNan else s * 2 ^ 31 + f32PosInf
  else if f32IsZero x then s * 2 ^ 31
  else
    let k := bitLen (f32SigOf y) + 27
    let q := (f32SigOf x <<< k) / f32SigOf y
    let r := (f32SigOf x <<< k) % f32SigOf y
    s * 2 ^ 31
      + f32RoundSig (2 * q + (if r == 0 then 0 else 1))
        (f32ExOf x - f32ExOf y - (k : ℤ) - 1)

/-- `operator==` on native floats, on patterns: false if either side is NaN,
otherwise true for identical patterns and for any two zeros. -/
def f32Beq (x y : ℕ) : Bool :=
  !f32IsNan x && !f32IsNan y && (x == y || (f32IsZero x && f32IsZero y))

example : f32Mul 0x3F800000 0x3F800000 = 0x3F800000 := by decide
example : f32Mul 0x3FC00000 0x3FC00000 = 0x40100000 := by decide
example : f32Mul f32QNan 0 = f32QNan := by decide
example : f32Mul 0 f32PosInf = f32QNan := by decide
example : f32Mul 0x80000000 0x3F800000 = 0x80000000 := by decide
example : f32Add 0x3F800000 0x3F800000 = 0x40000000 := by decide
example : f32Sub 0x3F800000 0x3F800000 = 0 := by decide
example : f32Div 0x3F800000 0x40000000 = 0x3F000000 := by decide
example : f32Div 0x40400000 0x40200000 = 0x3F99999A := by decide

/-!
`template<unsigned M, unsigned E> struct Float`: stores a native binary32
float (here: its 32-bit pattern); `M` and `E` only matter to `FromRaw`.
-/

/-- `Float<M, E>`: the stored native float, as its binary32 pattern. -/
structure Float (M E : ℕ) where
  value : ℕ
  deriving DecidableEq

/-- `Float<M, E>::FromFloat32(val)`: stores the given native float. -/
def Float.FromFloat32 (M E : ℕ) (val : ℕ) : Float M E := ⟨val⟩

/-- `Float<M, E>::FromRaw(hex)`.  `bias = 128 - (1 << (E - 1))` (the
instantiated widths have `1 ≤ E`, so the natural subtraction is exact);
field extraction and reassembly as in the source.  Of the three OR-ed
fields only `(hex >> (E + M)) << 31` can exceed 32 bits (for `M ≤ 16`,
`E ≤ 7` the other two cannot), so the wrap of the C++ 32-bit assignment is
the reduction of that field modulo `2 ^ 32`. -/
def Float.FromRaw (M E : ℕ) (hex : ℕ) : Float M E :=
  let bias : ℕ := 128 - 2 ^ (E - 1)
  let exponent : ℕ := (hex >>> M) &&& (2 ^ E - 1)
  let mantissa : ℕ := hex &&& (2 ^ M - 1)
  if hex &&& ((1 <<< (M + E + 1 - 1)) - 1) ≠ 0 then
    ⟨(((hex >>> (E + M)) <<< 31) % 2 ^ 32) ||| (mantissa <<< (23 - M))
      ||| ((exponent + bias) <<< 23)⟩
  else ⟨((hex >>> (E + M)) <<< 31) % 2 ^ 32⟩

/-- `Float<M, E>::Zero()`: `FromFloat32(0.f)`. -/
def Float.Zero (M E : ℕ) : Float M E := Float.FromFloat32 M E 0

/-- `Float<M, E>::ToFloat32()`. -/
def Float.ToFloat32 {M E : ℕ} (a : Float M E) : ℕ := a.value

/-- `Float<M, E>::operator*`: forced zero when one operand compares equal to
`0.f` and the other is not NaN, otherwise the native product. -/
def Float.mul {M E : ℕ} (a b : Float M E) : Float M E :=
  if (f32IsZero a.value && !f32IsNan b.value)
      || (f32IsZero b.value && !f32IsNan a.value) then
    Float.Zero M E
  else Float.FromFloat32 M E (f32Mul a.ToFloat32 b.ToFloat32)

/-- `Float<M, E>::operator/`: the native quotient. -/
def Float.div {M E : ℕ} (a b : Float M E) : Float M E :=
  Float.FromFloat32 M E (f32Div a.ToFloat32 b.ToFloat32)

/-- `Float<M, E>::operator+`: the native sum. -/
def Float.add {M E : ℕ} (a b : Float M E) : Float M E :=
  Float.FromFloat32 M E (f32Add a.ToFloat32 b.ToFloat32)

/-- `Float<M, E>::operator-`: the native difference. -/
def Float.sub {M E : ℕ} (a b : Float M E) : Float M E :=
  Float.FromFloat32 M E (f32Sub a.ToFloat32 b.ToFloat32)

/-- `Float<M, E>::operator*=`: the source duplicates the forced-zero
condition of `operator*`; the else branch is `value *= flt.ToFloat32()`. -/
def Float.mulAssign {M E : ℕ} (a b : Float M E) : Float M E :=
  if (f32IsZero a.value && !f32IsNan b.value)
      || (f32IsZero b.value && !f32IsNan a.value) then
    Float.Zero M E
  else ⟨f32Mul a.value b.ToFloat32⟩

/-- `Float<M, E>::operator/=`: `value /= flt.ToFloat32()`. -/
def Float.divAssign {M E : ℕ} (a b : Float M E) : Float M E :=
  ⟨f32Div a.value b.ToFloat32⟩

/-- `Float<M, E>::operator+=`: `value += flt.ToFloat32()`. -/
def Float.addAssign {M E : ℕ} (a b : Float M E) : Float M E :=
  ⟨f32Add a.value b.ToFloat32⟩

/-- `Float<M, E>::operator-=`: `value -= flt.ToFloat32()`. -/
def Float.subAssign {M E : ℕ} (a b : Float M E) : Float M E :=
  ⟨f32Sub a.value b.ToFloat32⟩

/-- `Float<M, E>::operator==`: native float equality of the stored values. -/
def Float.beq {M E : ℕ} (a b : Float M E) : Bool :=
  f32Beq a.ToFloat32 b.ToFloat32

example : Float.FromRaw 16 7 0 = ⟨0⟩ := by decide
example : Float.FromRaw 16 7 (2 ^ 23) = ⟨0x80000000⟩ := by decide
example : Float.FromRaw 16 7 0x3F0000 = ⟨0x3F800000⟩ := by decide
example : Float.FromRaw 12 7 0 = ⟨0⟩ := by decide
example : Float.FromRaw 12 7 (2 ^ 19) = ⟨0x80000000⟩ := by decide
example : Float.FromRaw 10 5 0 = ⟨0⟩ := by decide
example : Float.FromRaw 10 5 (2 ^ 15) = ⟨0x80000000⟩ := by decide
example : Float.FromRaw 10 5 0x3C00 = ⟨0x3F800000⟩ := by decide
example :
    Float.beq (Float.mul (Float.FromFloat32 16 7 0) (Float.FromFloat32 16 7 f32PosInf))
      (Float.FromFloat32 16 7 0) = true := by decide
example :
    f32IsNan (Float.mul (Float.FromFloat32 16 7 f32QNan) (Float.FromFloat32 16 7 0)).value
      = true := by decide

/-!
Helper lemmas.
-/

/-- `toInt16` does nothing on values already in the `int16_t` range. -/
lemma toInt16_eq_self (z : ℤ) (h1 : -32768 ≤ z) (h2 : z ≤ 32767) : toInt16 z = z := by
  unfold toInt16
  omega

/-- The low-16-bit pattern is a 16-bit number. -/
lemma toBits16_lt (z : ℤ) : toBits16 z < 65536 := by
  unfold toBits16
  omega

/-- Reading back the pattern of an in-range value recovers it. -/
lemma ofBits16_toBits16 (z : ℤ) (h1 : -32768 ≤ z) (h2 : z ≤ 32767) :
    ofBits16 (toBits16 z) = z := by
  unfold ofBits16 toBits16
  split
  · omega
  · omega

/-- `int16And` produces a signed 16-bit value. -/
lemma int16And_range (a b : ℤ) : -32768 ≤ int16And a b ∧ int16And a b ≤ 32767 := by
  unfold int16And ofBits16
  have h : Nat.land (toBits16 a) (toBits16 b) < 65536 :=
    Nat.lt_of_le_of_lt Nat.and_le_left (toBits16_lt a)
  split
  · omega
  · omega

/-- OR-ing an in-range value with `0` returns it unchanged. -/
lemma int16Or_zero (x : ℤ) (h1 : -32768 ≤ x) (h2 : x ≤ 32767) : int16Or x 0 = x := by
  unfold int16Or
  have hz : toBits16 0 = 0 := by decide
  have hor : Nat.lor (toBits16 x) 0 = toBits16 x := Nat.or_zero _
  rw [hz, hor]
  exact ofBits16_toBits16 x h1 h2

/-- Two `Fix12P4` values with equal raw fields are equal. -/
lemma Fix12P4.eq_of_value {a b : Fix12P4} (h : a.value = b.value) : a = b := by
  cases a
  cases b
  simpa using h

/-- The sign of a natural number cast to `ℤ`. -/
lemma sign_natCast (a : ℕ) : Int.sign (a : ℤ) = if a = 0 then 0 else 1 := by
  cases a
  · rfl
  · simp

/-- `Int.tdiv` is division of the magnitudes with the sign of the product:
truncation toward zero. -/
lemma tdiv_sign_natAbs (x y : ℤ) :
    Int.tdiv x y = Int.sign x * Int.sign y * ((Int.natAbs x / Int.natAbs y : ℕ) : ℤ) := by
  have core : ∀ a b : ℕ, Int.tdiv (a : ℤ) (b : ℤ) = Int.sign a * Int.sign b * ((a / b : ℕ) : ℤ) := by
    intro a b
    rw [← Int.ofNat_tdiv]
    rcases Nat.eq_zero_or_pos a with ha | ha
    · subst ha
      simp
    · rcases Nat.eq_zero_or_pos b with hb | hb
      · subst hb
        simp
      · rw [sign_natCast, sign_natCast, if_neg (by omega), if_neg (by omega), one_mul, one_mul]
  obtain ⟨a, rfl | rfl⟩ := x.eq_nat_or_neg <;> obtain ⟨b, rfl | rfl⟩ := y.eq_nat_or_neg <;>
    simp only [Int.tdiv_neg, Int.neg_tdiv, Int.sign_neg, Int.natAbs_neg, Int.natAbs_ofNat,
      core] <;> ring

/-- Evaluate `FromFloat` when the scaled argument is an integer. -/
lemma fromFloat_int (q : ℚ) (k : ℤ) (h : q * 16 = (k : ℚ)) :
    Fix12P4.FromFloat q = ⟨toInt16 k⟩ := by
  simp only [Fix12P4.FromFloat, h, ratRound_intCast]

/-!
The claims.
-/

/-- C4: `Fix12P4` division computes `(rawA * 16) / rawB` with truncating
(toward-zero) integer division when `rawB` is nonzero; for a zero raw
divisor it fails with an arithmetic error (`none`) that `operator/`
propagates, for every nonzero dividend. -/
theorem spec_C4 :
    ∀ a b : Fix12P4,
      (b.value ≠ 0 →
        Fix12P4.div a b
          = some ⟨toInt16 ((a.value * 16).sign * b.value.sign
              * (((a.value * 16).natAbs / b.value.natAbs : ℕ) : ℤ))⟩)
      ∧ (b.value = 0 → a.value ≠ 0 → Fix12P4.div a b = none) := by
  intro a b
  constructor
  · intro hb
    simp only [Fix12P4.div, Fix12P4.Divide, if_neg hb, Option.map_some']
    rw [tdiv_sign_natAbs]
  · intro hb _
    simp only [Fix12P4.div, Fix12P4.Divide, if_pos hb, Option.map_none']

/-- Witness for C4 at concrete inputs: `3 / 2 = 1.5` exactly, and a zero
divisor faults. -/
theorem spec_C4_witness :
    Fix12P4.div (Fix12P4.FromInt 3 0) (Fix12P4.FromInt 2 0) = some ⟨24⟩
      ∧ Fix12P4.div (Fix12P4.FromInt 1 0) Fix12P4.Zero = none := by
  constructor
  · have h := (spec_C4 (Fix12P4.FromInt 3 0) (Fix12P4.FromInt 2 0)).1 (by decide)
    rw [h]
    decide
  · exact (spec_C4 (Fix12P4.FromInt 1 0) Fix12P4.Zero).2 (by decide) (by decide)

/-- C5: `Fix12P4` multiplication computes `(rawA * rawB) / 16` with
truncating (toward-zero) division — the magnitude is divided and the sign
of the product kept, never rounding to nearest; `FromInt(1) * FromInt(1) ==
FromInt(1)`; the negative pair `FromInt(-1) * FromFloat(0.5)` gives exactly
`-0.5`; and a pair whose exact product is not a multiple of `1/16`
(`(-1/16) * (15/16)`) truncates toward zero (to `0`, where
round-to-nearest would give `-1/16`). -/
theorem spec_C5 :
    (∀ a b : Fix12P4,
        Fix12P4.mul a b
          = ⟨toInt16 ((a.value * b.value).sign
              * (((a.value * b.value).natAbs / 16 : ℕ) : ℤ))⟩)
      ∧ Fix12P4.mul (Fix12P4.FromInt 1 0) (Fix12P4.FromInt 1 0) = Fix12P4.FromInt 1 0
      ∧ Fix12P4.mul (Fix12P4.FromInt (-1) 0) (Fix12P4.FromFloat (1 / 2))
          = Fix12P4.FromFloat (-(1 / 2))
      ∧ Fix12P4.mul (Fix12P4.FromFloat (-(1 / 16))) (Fix12P4.FromFloat (15 / 16))
          = Fix12P4.Zero := by
  refine ⟨?_, by decide, ?_, ?_⟩
  · intro a b
    simp only [Fix12P4.mul, Fix12P4.Multiply]
    rw [tdiv_sign_natAbs]
    have h1 : Int.sign 16 = 1 := by decide
    have h2 : Int.natAbs 16 = 16 := by decide
    rw [h1, h2, mul_one]
  · rw [fromFloat_int (1 / 2) 8 (by norm_num), fromFloat_int (-(1 / 2)) (-8) (by norm_num)]
    decide
  · rw [fromFloat_int (-(1 / 16)) (-1) (by norm_num),
      fromFloat_int (15 / 16) 15 (by norm_num)]
    decide

/-- C6: the raw-value comparison of two `Fix12P4` values agrees exactly with
comparison of the represented real values `raw/16`, and it is a strict
total order (trichotomous and asymmetric). -/
theorem spec_C6 :
    ∀ a b : Fix12P4,
      (Fix12P4.lt a b = true ↔ (a.value : ℚ) / 16 < (b.value : ℚ) / 16)
      ∧ (Fix12P4.lt a b = true ∨ a = b ∨ Fix12P4.lt b a = true)
      ∧ ¬(Fix12P4.lt a b = true ∧ Fix12P4.lt b a = true) := by
  intro a b
  have key : ∀ x y : Fix12P4,
      (Fix12P4.lt x y = true ↔ (x.value : ℚ) / 16 < (y.value : ℚ) / 16) := by
    intro x y
    simp only [Fix12P4.lt, decide_eq_true_eq]
    rw [div_lt_div_iff_of_pos_right (by norm_num)]
    exact_mod_cast Iff.rfl
  refine ⟨key a b, ?_, ?_⟩
  · rcases lt_trichotomy a.value b.value with h | h | h
    · exact Or.inl (by simpa [Fix12P4.lt] using h)
    · exact Or.inr (Or.inl (Fix12P4.eq_of_value h))
    · exact Or.inr (Or.inr (by simpa [Fix12P4.lt] using h))
  · rintro ⟨h1, h2⟩
    simp only [Fix12P4.lt, decide_eq_true_eq] at h1 h2
    omega

/-- C9 as stated is false: `FromInt(1024) + FromInt(1024)` wraps the raw
sum `32768` to `-32768`, so the represented value is `-2048`, not `2048`. -/
theorem spec_C9_counterexample :
    ¬ (((Fix12P4.add (Fix12P4.FromInt 1024 0) (Fix12P4.FromInt 1024 0)).value : ℚ) / 16
      = ((Fix12P4.FromInt 1024 0).value : ℚ) / 16
        + ((Fix12P4.FromInt 1024 0).value : ℚ) / 16) := by
  have h1 : (Fix12P4.FromInt 1024 0).value = 16384 := by decide
  have h2 : (Fix12P4.add (Fix12P4.FromInt 1024 0) (Fix12P4.FromInt 1024 0)).value
      = -32768 := by decide
  rw [h1, h2]
  norm_num

/-- C9, amended: addition and subtraction are raw 16-bit add/subtract and
are exact whenever the raw sum (respectively difference) does not overflow
the signed 16-bit range; on overflow the raw result wraps. -/
theorem spec_C9 :
    ∀ a b : Fix12P4,
      (-32768 ≤ a.value + b.value → a.value + b.value ≤ 32767 →
        ((Fix12P4.add a b).value : ℚ) / 16 = (a.value : ℚ) / 16 + (b.value : ℚ) / 16)
      ∧ (-32768 ≤ a.value - b.value → a.value - b.value ≤ 32767 →
        ((Fix12P4.sub a b).value : ℚ) / 16 = (a.value : ℚ) / 16 - (b.value : ℚ) / 16) := by
  intro a b
  constructor
  · intro h1 h2
    simp only [Fix12P4.add, toInt16_eq_self _ h1 h2]
    push_cast
    ring
  · intro h1 h2
    simp only [Fix12P4.sub, toInt16_eq_self _ h1 h2]
    push_cast
    ring

/-- Witness for C9 at concrete inputs `1 + 2` and `1 - 2` (no overflow). -/
theorem spec_C9_witness :
    ((Fix12P4.add (Fix12P4.FromInt 1 0) (Fix12P4.FromInt 2 0)).value : ℚ) / 16
        = ((Fix12P4.FromInt 1 0).value : ℚ) / 16 + ((Fix12P4.FromInt 2 0).value : ℚ) / 16
      ∧ ((Fix12P4.sub (Fix12P4.FromInt 1 0) (Fix12P4.FromInt 2 0)).value : ℚ) / 16
        = ((Fix12P4.FromInt 1 0).value : ℚ) / 16 - ((Fix12P4.FromInt 2 0).value : ℚ) / 16 :=
  ⟨(spec_C9 (Fix12P4.FromInt 1 0) (Fix12P4.FromInt 2 0)).1 (by decide) (by decide),
    (spec_C9 (Fix12P4.FromInt 1 0) (Fix12P4.FromInt 2 0)).2 (by decide) (by decide)⟩

/-- AND-ing a 16-bit pattern with `0xFFF0` clears the low 4 bits. -/
lemma land_FFF0 (b : ℕ) (hb : b < 65536) : Nat.land b 65520 = 16 * (b / 16) := by
  apply Nat.eq_of_testBit_eq
  intro i
  change (b &&& 65520).testBit i = (16 * (b / 16)).testBit i
  have hrw : 16 * (b / 16) = (b >>> 4) <<< 4 := by
    rw [Nat.shiftLeft_eq, Nat.shiftRight_eq_div_pow]
    ring
  have h65520 : (65520 : ℕ) = (2 ^ 12 - 1) <<< 4 := by decide
  rw [Nat.testBit_land, h65520, Nat.testBit_shiftLeft, Nat.testBit_two_pow_sub_one, hrw,
    Nat.testBit_shiftLeft, Nat.testBit_shiftRight]
  by_cases h4 : 4 ≤ i
  · rw [show 4 + (i - 4) = i from by omega]
    by_cases h12 : i - 4 < 12
    · simp [h4, h12]
    · have h2i : (65536 : ℕ) ≤ 2 ^ i := by
        calc (65536 : ℕ) = 2 ^ 16 := by norm_num
          _ ≤ 2 ^ i := Nat.pow_le_pow_right (by norm_num) (by omega)
      have hbit : b.testBit i = false := Nat.testBit_lt_two_pow (lt_of_lt_of_le hb h2i)
      simp [h4, h12, hbit]
  · simp [h4]

/-- `value & IntMask()` on an in-range value rounds it down to a multiple
of 16 (towards negative infinity in two's complement). -/
lemma int16And_intMask (z : ℤ) (h1 : -32768 ≤ z) (h2 : z ≤ 32767) :
    int16And z Fix12P4.IntMask = z - z % 16 := by
  unfold int16And
  have hm : toBits16 Fix12P4.IntMask = 65520 := by decide
  rw [hm, land_FFF0 (toBits16 z) (toBits16_lt z)]
  unfold ofBits16 toBits16
  split
  · omega
  · omega

/-- `FromInt(n, 0)` for `n` in the representable range has raw value
`n * 16`. -/
lemma fromInt_value (n : ℤ) (h1 : -2048 ≤ n) (h2 : n ≤ 2047) :
    Fix12P4.FromInt n 0 = ⟨n * 16⟩ := by
  simp only [Fix12P4.FromInt]
  have hz : int16And 0 Fix12P4.FracMask = 0 := by decide
  rw [hz, int16Or_zero _ (int16And_range _ _).1 (int16And_range _ _).2,
    int16And_intMask (n * 16) (by omega) (by omega)]
  exact Fix12P4.eq_of_value (by simp)

/-- C7 as stated is false at `n = 1`: `FromFloat(16*1)` has raw value
`round(16*16) = 256` (representing `16.0`), while `FromInt(1)` has raw
value `16` (representing `1.0`). -/
theorem spec_C7_counterexample :
    Fix12P4.Floor (Fix12P4.FromFloat (16 * 1)) ≠ Fix12P4.FromInt 1 0 := by
  rw [fromFloat_int (16 * 1) 256 (by norm_num)]
  decide

/-- C7, amended: the factor 16 must not be applied to the argument of
`FromFloat` (which already scales by 16 itself): for every integer
`n ∈ [-2048, 2047]`, `Floor(FromFloat(n)) == FromInt(n)`. -/
theorem spec_C7 :
    ∀ n : ℤ, -2048 ≤ n → n ≤ 2047 →
      Fix12P4.Floor (Fix12P4.FromFloat (n : ℚ)) = Fix12P4.FromInt n 0 := by
  intro n h1 h2
  rw [fromFloat_int (n : ℚ) (16 * n) (by push_cast; ring)]
  rw [show toInt16 (16 * n) = 16 * n from toInt16_eq_self _ (by omega) (by omega)]
  simp only [Fix12P4.Floor]
  rw [int16And_intMask _ (by omega) (by omega), fromInt_value n h1 h2]
  exact Fix12P4.eq_of_value (by simp; omega)

/-- Witness for C7 at `n = 7`. -/
theorem spec_C7_witness :
    Fix12P4.Floor (Fix12P4.FromFloat ((7 : ℤ) : ℚ)) = Fix12P4.FromInt 7 0 :=
  spec_C7 7 (by norm_num) (by norm_num)

/-- C8: `Ceil` is literally `Floor(raw + FracMask)`, and every integral
value `FromInt(n)` for `n` in the representable integer range
`[-2048, 2047]` is a fixed point of `Ceil`. -/
theorem spec_C8 :
    (∀ a : Fix12P4, Fix12P4.Ceil a = Fix12P4.Floor ⟨toInt16 (a.value + Fix12P4.FracMask)⟩)
      ∧ ∀ n : ℤ, -2048 ≤ n → n ≤ 2047 →
        Fix12P4.Ceil (Fix12P4.FromInt n 0) = Fix12P4.FromInt n 0 := by
  constructor
  · intro a
    rfl
  · intro n h1 h2
    rw [fromInt_value n h1 h2]
    simp only [Fix12P4.Ceil, Fix12P4.Floor, Fix12P4.FracMask]
    rw [toInt16_eq_self _ (by omega) (by omega), int16And_intMask _ (by omega) (by omega)]
    exact Fix12P4.eq_of_value (by simp; omega)

/-- Witness for C8 at `n = 5`. -/
theorem spec_C8_witness :
    Fix12P4.Ceil (Fix12P4.FromInt 5 0) = Fix12P4.FromInt 5 0 :=
  spec_C8.2 5 (by norm_num) (by norm_num)

/-- The raw pattern computed by `FromRaw`, as a plain arithmetic
conditional. -/
lemma fromRaw_value (M E hex : ℕ) :
    (Float.FromRaw M E hex).value =
      if hex &&& ((1 <<< (M + E + 1 - 1)) - 1) ≠ 0 then
        (((hex >>> (E + M)) <<< 31) % 2 ^ 32) ||| ((hex &&& (2 ^ M - 1)) <<< (23 - M))
          ||| ((((hex >>> M) &&& (2 ^ E - 1)) + (128 - 2 ^ (E - 1))) <<< 23)
      else ((hex >>> (E + M)) <<< 31) % 2 ^ 32 := by
  unfold Float.FromRaw
  split
  · rfl
  · rfl

/-- OR of disjoint fields is addition: the field `a` shifted up by `i` bits
does not overlap `b < 2^i`. -/
lemma lor_eq_add (i a b : ℕ) (hb : b < 2 ^ i) : (a * 2 ^ i) ||| b = a * 2 ^ i + b := by
  rw [mul_comm]
  exact (Nat.mul_add_lt_is_or hb a).symm

/-- C2: for any widths, a raw input whose bits below the sign bit (the low
`M+E` bits) are all zero decodes to a signed zero whose sign is exactly the
raw sign bit; in particular `FromRaw(0)` gives the `+0.0` pattern and
`FromRaw(sign-bit only)` gives the `-0.0` pattern at all three widths. -/
theorem spec_C2 :
    (∀ M E hex : ℕ, hex < 2 ^ 32 → hex &&& (2 ^ (M + E) - 1) = 0 →
        (Float.FromRaw M E hex).value = hex >>> (M + E) % 2 * 2 ^ 31)
      ∧ (Float.FromRaw 16 7 0).value = 0
      ∧ (Float.FromRaw 16 7 (2 ^ 23)).value = 2 ^ 31
      ∧ (Float.FromRaw 12 7 0).value = 0
      ∧ (Float.FromRaw 12 7 (2 ^ 19)).value = 2 ^ 31
      ∧ (Float.FromRaw 10 5 0).value = 0
      ∧ (Float.FromRaw 10 5 (2 ^ 15)).value = 2 ^ 31 := by
  refine ⟨?_, by decide, by decide, by decide, by decide, by decide, by decide⟩
  intro M E hex _ h0
  rw [fromRaw_value]
  have hm : (1 : ℕ) <<< (M + E + 1 - 1) - 1 = 2 ^ (M + E) - 1 := by
    rw [Nat.add_sub_cancel, Nat.one_shiftLeft]
  rw [hm]
  rw [if_neg (by simp [h0])]
  rw [Nat.add_comm E M, Nat.shiftLeft_eq,
    show (2 : ℕ) ^ 32 = 2 * 2 ^ 31 from by norm_num, Nat.mul_mod_mul_right]

/-- Witness for C2: the sign-only input at width (16,7). -/
theorem spec_C2_witness :
    (Float.FromRaw 16 7 (2 ^ 23)).value = 2 ^ 23 >>> (16 + 7) % 2 * 2 ^ 31 :=
  spec_C2.1 16 7 (2 ^ 23) (by norm_num) (by decide)

/-- C3: for each of the three widths, a raw input fitting in `M+E+1` bits
with some bit set below the sign bit decodes to the pattern
`sign*2^31 + (exponent + bias)*2^23 + mantissa*2^(23-M)`, with
`bias = 128 - 2^(E-1)`, `sign` the top bit, `exponent` bits `[M, M+E)` and
`mantissa` bits `[0, M)` of the raw input. -/
theorem spec_C3 :
    (∀ hex : ℕ, hex < 2 ^ 24 → hex % 2 ^ 23 ≠ 0 →
        (Float.FromRaw 16 7 hex).value
          = hex / 2 ^ 23 * 2 ^ 31 + (hex / 2 ^ 16 % 2 ^ 7 + 64) * 2 ^ 23
            + hex % 2 ^ 16 * 2 ^ 7)
      ∧ (∀ hex : ℕ, hex < 2 ^ 20 → hex % 2 ^ 19 ≠ 0 →
        (Float.FromRaw 12 7 hex).value
          = hex / 2 ^ 19 * 2 ^ 31 + (hex / 2 ^ 12 % 2 ^ 7 + 64) * 2 ^ 23
            + hex % 2 ^ 12 * 2 ^ 11)
      ∧ (∀ hex : ℕ, hex < 2 ^ 16 → hex % 2 ^ 15 ≠ 0 →
        (Float.FromRaw 10 5 hex).value
          = hex / 2 ^ 15 * 2 ^ 31 + (hex / 2 ^ 10 % 2 ^ 5 + 112) * 2 ^ 23
            + hex % 2 ^ 10 * 2 ^ 13) := by
  refine ⟨?_, ?_, ?_⟩
  · intro hex hlt h0
    rw [fromRaw_value]
    rw [if_pos (by
      rw [show (1 : ℕ) <<< (16 + 7 + 1 - 1) - 1 = 2 ^ 23 - 1 from by decide,
        Nat.and_pow_two_sub_one_eq_mod]
      exact h0)]
    rw [show (7 : ℕ) + 16 = 23 from by norm_num, show (23 : ℕ) - 16 = 7 from by norm_num,
      show (128 : ℕ) - 2 ^ (7 - 1) = 64 from by norm_num]
    rw [Nat.and_pow_two_sub_one_eq_mod, Nat.and_pow_two_sub_one_eq_mod,
      Nat.shiftRight_eq_div_pow, Nat.shiftRight_eq_div_pow,
      Nat.shiftLeft_eq, Nat.shiftLeft_eq, Nat.shiftLeft_eq]
    have hmod : hex / 2 ^ 23 * 2 ^ 31 % 2 ^ 32 = hex / 2 ^ 23 * 2 ^ 31 := by
      have h01 : hex / 2 ^ 23 = 0 ∨ hex / 2 ^ 23 = 1 := by omega
      rcases h01 with h | h <;> rw [h] <;> norm_num
    rw [hmod, Nat.lor_assoc,
      Nat.lor_comm (hex % 2 ^ 16 * 2 ^ 7) ((hex / 2 ^ 16 % 2 ^ 7 + 64) * 2 ^ 23),
      lor_eq_add 23 _ _ (by omega), lor_eq_add 31 _ _ (by omega)]
    omega
  · intro hex hlt h0
    rw [fromRaw_value]
    rw [if_pos (by
      rw [show (1 : ℕ) <<< (12 + 7 + 1 - 1) - 1 = 2 ^ 19 - 1 from by decide,
        Nat.and_pow_two_sub_one_eq_mod]
      exact h0)]
    rw [show (7 : ℕ) + 12 = 19 from by norm_num, show (23 : ℕ) - 12 = 11 from by norm_num,
      show (128 : ℕ) - 2 ^ (7 - 1) = 64 from by norm_num]
    rw [Nat.and_pow_two_sub_one_eq_mod, Nat.and_pow_two_sub_one_eq_mod,
      Nat.shiftRight_eq_div_pow, Nat.shiftRight_eq_div_pow,
      Nat.shiftLeft_eq, Nat.shiftLeft_eq, Nat.shiftLeft_eq]
    have hmod : hex / 2 ^ 19 * 2 ^ 31 % 2 ^ 32 = hex / 2 ^ 19 * 2 ^ 31 := by
      have h01 : hex / 2 ^ 19 = 0 ∨ hex / 2 ^ 19 = 1 := by omega
      rcases h01 with h | h <;> rw [h] <;> norm_num
    rw [hmod, Nat.lor_assoc,
      Nat.lor_comm (hex % 2 ^ 12 * 2 ^ 11) ((hex / 2 ^ 12 % 2 ^ 7 + 64) * 2 ^ 23),
      lor_eq_add 23 _ _ (by omega), lor_eq_add 31 _ _ (by omega)]
    omega
  · intro hex hlt h0
    rw [fromRaw_value]
    rw [if_pos (by
      rw [show (1 : ℕ) <<< (10 + 5 + 1 - 1) - 1 = 2 ^ 15 - 1 from by decide,
        Nat.and_pow_two_sub_one_eq_mod]
      exact h0)]
    rw [show (5 : ℕ) + 10 = 15 from by norm_num, show (23 : ℕ) - 10 = 13 from by norm_num,
      show (128 : ℕ) - 2 ^ (5 - 1) = 112 from by norm_num]
    rw [Nat.and_pow_two_sub_one_eq_mod, Nat.and_pow_two_sub_one_eq_mod,
      Nat.shiftRight_eq_div_pow, Nat.shiftRight_eq_div_pow,
      Nat.shiftLeft_eq, Nat.shiftLeft_eq, Nat.shiftLeft_eq]
    have hmod : hex / 2 ^ 15 * 2 ^ 31 % 2 ^ 32 = hex / 2 ^ 15 * 2 ^ 31 := by
      have h01 : hex / 2 ^ 15 = 0 ∨ hex / 2 ^ 15 = 1 := by omega
      rcases h01 with h | h <;> rw [h] <;> norm_num
    rw [hmod, Nat.lor_assoc,
      Nat.lor_comm (hex % 2 ^ 10 * 2 ^ 13) ((hex / 2 ^ 10 % 2 ^ 5 + 112) * 2 ^ 23),
      lor_eq_add 23 _ _ (by omega), lor_eq_add 31 _ _ (by omega)]
    omega

/-- Witness for C3: the raw pattern of `1.0` at width (16,7) (sign 0,
exponent field 63, mantissa 0) decodes to the pattern predicted by the
formula. -/
theorem spec_C3_witness :
    (Float.FromRaw 16 7 0x3F0000).value
      = 0x3F0000 / 2 ^ 23 * 2 ^ 31 + (0x3F0000 / 2 ^ 16 % 2 ^ 7 + 64) * 2 ^ 23
        + 0x3F0000 % 2 ^ 16 * 2 ^ 7 :=
  spec_C3.1 0x3F0000 (by norm_num) (by norm_num)

/-- C1: at the three instantiated widths, multiplication is forced to
(positive) zero when one operand compares equal to zero and the other is
not NaN — even if the other is Infinity — and is the native binary32
product otherwise; concretely `0 * Inf == 0` while `NaN * 0` is NaN. -/
theorem spec_C1 :
    (∀ M E : ℕ, (M, E) ∈ [(16, 7), (12, 7), (10, 5)] →
        ∀ a b : Float M E,
          (((f32IsZero a.value = true ∧ f32IsNan b.value = false)
              ∨ (f32IsZero b.value = true ∧ f32IsNan a.value = false)) →
            Float.mul a b = Float.Zero M E)
          ∧ (¬((f32IsZero a.value = true ∧ f32IsNan b.value = false)
              ∨ (f32IsZero b.value = true ∧ f32IsNan a.value = false)) →
            Float.mul a b = Float.FromFloat32 M E (f32Mul a.value b.value)))
      ∧ Float.beq (Float.mul (Float.FromFloat32 16 7 0) (Float.FromFloat32 16 7 f32PosInf))
          (Float.FromFloat32 16 7 0) = true
      ∧ f32IsNan (Float.mul (Float.FromFloat32 16 7 f32QNan) (Float.FromFloat32 16 7 0)).value
          = true
      ∧ Float.beq (Float.mul (Float.FromFloat32 12 7 0) (Float.FromFloat32 12 7 f32PosInf))
          (Float.FromFloat32 12 7 0) = true
      ∧ f32IsNan (Float.mul (Float.FromFloat32 12 7 f32QNan) (Float.FromFloat32 12 7 0)).value
          = true
      ∧ Float.beq (Float.mul (Float.FromFloat32 10 5 0) (Float.FromFloat32 10 5 f32PosInf))
          (Float.FromFloat32 10 5 0) = true
      ∧ f32IsNan (Float.mul (Float.FromFloat32 10 5 f32QNan) (Float.FromFloat32 10 5 0)).value
          = true := by
  refine ⟨fun M E _ a b => ⟨?_, ?_⟩,
    by decide, by decide, by decide, by decide, by decide, by decide⟩
  · intro h
    have hcond : ((f32IsZero a.value && !f32IsNan b.value)
        || (f32IsZero b.value && !f32IsNan a.value)) = true := by
      rcases h with ⟨h1, h2⟩ | ⟨h1, h2⟩ <;> simp [h1, h2]
    simp only [Float.mul, Float.ToFloat32]
    rw [if_pos hcond]
  · intro h
    have hcond : ((f32IsZero a.value && !f32IsNan b.value)
        || (f32IsZero b.value && !f32IsNan a.value)) = false := by
      cases hz : f32IsZero a.value <;> cases hn : f32IsNan b.value <;>
        cases hz2 : f32IsZero b.value <;> cases hn2 : f32IsNan a.value <;> simp_all
    simp only [Float.mul, Float.ToFloat32]
    rw [if_neg (by simp [hcond])]

/-- Witness for C1 at width (16,7): `0 * Inf` is forced to zero. -/
theorem spec_C1_witness :
    Float.mul (Float.FromFloat32 16 7 0) (Float.FromFloat32 16 7 f32PosInf)
      = Float.Zero 16 7 :=
  (spec_C1.1 16 7 (by decide) (Float.FromFloat32 16 7 0)
    (Float.FromFloat32 16 7 f32PosInf)).1 (Or.inl ⟨by decide, by decide⟩)

/-- C10: at the three instantiated widths, each compound assignment
operator leaves the left operand equal to the corresponding binary
operator's result, including the duplicated forced-zero multiply
condition. -/
theorem spec_C10 :
    ∀ M E : ℕ, (M, E) ∈ [(16, 7), (12, 7), (10, 5)] →
      ∀ a b : Float M E,
        Float.mulAssign a b = Float.mul a b
          ∧ Float.divAssign a b = Float.div a b
          ∧ Float.addAssign a b = Float.add a b
          ∧ Float.subAssign a b = Float.sub a b := by
  intro M E _ a b
  exact ⟨rfl, rfl, rfl, rfl⟩

/-- Witness for C10 at width (16,7) on `1.5 *= 2.0`. -/
theorem spec_C10_witness :
    Float.mulAssign (Float.FromFloat32 16 7 0x3FC00000) (Float.FromFloat32 16 7 0x40000000)
      = Float.mul (Float.FromFloat32 16 7 0x3FC00000) (Float.FromFloat32 16 7 0x40000000) :=
  (spec_C10 16 7 (by decide) (Float.FromFloat32 16 7 0x3FC00000)
    (Float.FromFloat32 16 7 0x40000000)).1

end Pica
